import Mathlib

/-!
Verification of the expense-sharing backend (`split`).

This file is a shallow embedding, in Lean 4, of the core ledger logic of the
repository: the split allocators inside the `create_expense` router
(`backend/app/routers/expenses.py`), the split-replacement logic of
`update_expense`, the draft-submission checks of `submit_draft_expense`, and
the balance engine `calculate_user_balances`
(`backend/app/db/sqlite_service.py` / `dynamodb_service.py`; the two bodies
are identical).

Monetary values are modelled as exact rationals (the specification demands
fixed-point decimals); Python's `round(x, 2)` is modelled as half-to-even
rounding at two decimal places.  User identifiers are strings, as both
backends convert ids with `str(...)` before comparing.
-/

namespace SplitApp

/-- Half-to-even ("banker's") rounding of a rational to an integer, the
behaviour of Python's builtin `round` on exact decimal values. -/
def rhe (q : ℚ) : ℤ :=
  let f := ⌊q⌋
  let r := q - f
  if r < 1/2 then f
  else if 1/2 < r then f + 1
  else if f % 2 = 0 then f else f + 1

/-- Python's `round(x, 2)`: round to two decimal places, ties to even. -/
def round2 (q : ℚ) : ℚ := (rhe (q * 100) : ℚ) / 100

/-- One committed split row: `ExpenseSplit` as produced by the router
(`user_id`, `amount`, and the optional `percentage` / `shares` audit
fields). -/
structure SplitOut where
  user_id : String
  amount : ℚ
  percentage : Option ℚ := none
  shares : Option ℚ := none
deriving Repr, DecidableEq

/-- Python errors that can escape the split-allocation code of the router:
an `HTTPException` with a status code, or an unhandled `ZeroDivisionError`. -/
inductive PyErr where
  | httpError (code : ℕ)
  | zeroDivision
deriving Repr, DecidableEq

/-- Equal split of `create_expense` (routers/expenses.py lines 65-76):
`user_ids = [current_user] + split_with_user_ids`, duplicates removed with
`set()`, then every resulting user gets `round(amount / len(user_ids), 2)`.
`list(set(..))` returns the distinct ids in an unspecified order; the
embedding fixes the deterministic order `(payer :: ids).dedup`, which keeps
the same set of ids. -/
def equalAlloc (amount : ℚ) (payer : String) (ids : List String) : List SplitOut :=
  let user_ids := (payer :: ids).dedup
  user_ids.map (fun u => { user_id := u, amount := round2 (amount / user_ids.length) })

/-- Exact split of `create_expense` (routers/expenses.py lines 78-95): the
supplied `(user_id, amount)` pairs are taken as-is; if the payer is not
among them and `amount - total_split > 0`, the payer is appended with that
remainder.  No error path exists in the source. -/
def exactAlloc (amount : ℚ) (payer : String) (splits : List (String × ℚ)) : List SplitOut :=
  let base := splits.map (fun s => { user_id := s.1, amount := s.2 : SplitOut })
  let total_split := (splits.map Prod.snd).sum
  let current_user_in_splits := splits.any (fun s => s.1 == payer)
  if current_user_in_splits then base
  else if amount - total_split > 0 then
    base ++ [{ user_id := payer, amount := amount - total_split }]
  else base

/-- Percentage split of `create_expense` (routers/expenses.py lines 97-104):
each `(user_id, percentage)` pair yields `round(amount * pct / 100, 2)`. -/
def percentageAlloc (amount : ℚ) (splits : List (String × ℚ)) : List SplitOut :=
  splits.map (fun s =>
    { user_id := s.1, amount := round2 (amount * s.2 / 100), percentage := some s.2 })

/-- Shares split of `create_expense` (routers/expenses.py lines 106-114):
`total_shares = sum(shares)`, then each participant gets
`round(amount * share / total_shares, 2)`.  When the list is non-empty and
`total_shares = 0`, the first loop iteration raises an unhandled
`ZeroDivisionError`; with an empty list the loop body never runs. -/
def sharesAlloc (amount : ℚ) (splits : List (String × ℚ)) : Except PyErr (List SplitOut) :=
  let total_shares := (splits.map Prod.snd).sum
  if splits ≠ [] ∧ total_shares = 0 then .error .zeroDivision
  else .ok (splits.map (fun s =>
    { user_id := s.1, amount := round2 (amount * s.2 / total_shares), shares := some s.2 }))

/-- Sum of the amounts of a list of split rows. -/
def allocSum (l : List SplitOut) : ℚ := (l.map SplitOut.amount).sum

/-- A stored expense row together with its committed split rows, the fields
read by `calculate_user_balances` and the fetch queries (`paid_by_id`,
`splits`, `is_active`, `group_id`, and `created_at`, the sort key of both
fetch queries, modelled as a numeric timestamp).  Neither backend stores a
draft flag (`models/expense.py` has no `is_draft` column and
`_expense_to_dict` exposes none). -/
structure ExpenseRow where
  paid_by_id : String
  splits : List SplitOut
  is_active : Bool := true
  group_id : Option String := none
  created_at : ℕ := 0
deriving Repr, DecidableEq

/-- A stored settlement row, the fields read by `calculate_user_balances`
and the settlement fetch queries. -/
structure SettlementRow where
  from_user_id : String
  to_user_id : String
  amount : ℚ
  is_active : Bool := true
  group_id : Option String := none
deriving Repr, DecidableEq

/-- The repository state visible to the balance engine. -/
structure DBState where
  expenses : List ExpenseRow
  settlements : List SettlementRow
deriving Repr, DecidableEq

/-- The running `balances` dict of `calculate_user_balances`, as a total
map defaulting to 0 (`balances.get(k, 0)`). -/
def Balances := String → ℚ

/-- `balances[key] = v`. -/
def updateBal (b : Balances) (key : String) (v : ℚ) : Balances :=
  fun q => if q = key then v else b q

/-- One iteration of the split loop of `calculate_user_balances`
(sqlite_service.py lines 689-696, identical in dynamodb_service.py):
if the queried user paid and the split belongs to someone else, that user
owes more; if someone else paid and the split belongs to the queried user,
the queried user owes the payer. -/
def applySplitStep (u payer : String) (b : Balances) (s : SplitOut) : Balances :=
  if payer = u ∧ s.user_id ≠ u then
    updateBal b s.user_id (b s.user_id + s.amount)
  else if payer ≠ u ∧ s.user_id = u then
    updateBal b payer (b payer - s.amount)
  else b

/-- Processing of one expense: fold the split loop over its split rows. -/
def applyExpenseStep (u : String) (b : Balances) (e : ExpenseRow) : Balances :=
  e.splits.foldl (applySplitStep u e.paid_by_id) b

/-- One iteration of the settlement loop of `calculate_user_balances`
(sqlite_service.py lines 704-712): a payment the queried user made raises
the counterpart's signed balance, a payment received lowers it. -/
def applySettlementStep (u : String) (b : Balances) (s : SettlementRow) : Balances :=
  if s.from_user_id = u then
    updateBal b s.to_user_id (b s.to_user_id + s.amount)
  else if s.to_user_id = u then
    updateBal b s.from_user_id (b s.from_user_id - s.amount)
  else b

/-- The raw `balances` dict after both loops of `calculate_user_balances`,
before the tolerance filter. -/
def balancesRaw (u : String) (es : List ExpenseRow) (ss : List SettlementRow) : Balances :=
  ss.foldl (applySettlementStep u) (es.foldl (applyExpenseStep u) (fun _ => 0))

/-- The balance map returned by `calculate_user_balances` for given fetched
lists: the final comprehension keeps exactly the entries with
`abs(v) > 0.01`, so a counterpart key maps to `some v` when `|v| > 1/100`
and is absent (`none`) otherwise. -/
def balancesFromLists (u : String) (es : List ExpenseRow) (ss : List SettlementRow) :
    String → Option ℚ :=
  fun k =>
    if 1/100 < |balancesRaw u es ss k| then some (balancesRaw u es ss k) else none

/-- `get_user_expenses` membership condition: the user paid the expense or
holds one of its split rows. -/
def involvedExpense (u : String) (e : ExpenseRow) : Bool :=
  e.paid_by_id == u || e.splits.any (fun s => s.user_id == u)

/-- Stable insertion into a list sorted by descending `created_at`: the new
row is placed before the first row whose timestamp does not exceed it. -/
def insertByCreatedDesc (e : ExpenseRow) : List ExpenseRow → List ExpenseRow
  | [] => [e]
  | a :: t =>
      if a.created_at ≤ e.created_at then e :: a :: t
      else a :: insertByCreatedDesc e t

/-- Stable sort by descending `created_at`, the `ORDER BY created_at DESC`
of the SQLite queries and the `sort(key=created_at, reverse=True)` of the
DynamoDB queries (ties keep their stored order). -/
def sortByCreatedDesc : List ExpenseRow → List ExpenseRow
  | [] => []
  | a :: t => insertByCreatedDesc a (sortByCreatedDesc t)

/-- The rows matching the expense fetch of `calculate_user_balances`
before ordering and truncation: `get_group_expenses` keeps the active
expenses of the group, `get_user_expenses` keeps the active expenses the
user paid or is split in. -/
def userExpenseCandidates (db : DBState) (u : String) (scope : Option String) :
    List ExpenseRow :=
  match scope with
  | some g => db.expenses.filter (fun e => e.is_active && e.group_id == some g)
  | none => db.expenses.filter (fun e => e.is_active && involvedExpense u e)

/-- The expense fetch of `calculate_user_balances`: the matching rows,
ordered by descending `created_at`, truncated to the `limit=1000` most
recent rows that both `get_user_expenses` and `get_group_expenses` are
called with (sqlite_service.py lines 680-682, dynamodb_service.py lines
1579-1582). -/
def fetchExpenses (db : DBState) (u : String) (scope : Option String) : List ExpenseRow :=
  (sortByCreatedDesc (userExpenseCandidates db u scope)).take 1000

/-- `get_user_settlements` membership condition. -/
def involvedSettlement (u : String) (s : SettlementRow) : Bool :=
  s.from_user_id == u || s.to_user_id == u

/-- The settlement fetch of `calculate_user_balances`:
`get_group_settlements` (all active settlements of the group) in group
scope, `get_user_settlements` (active settlements involving the user) in
global scope. -/
def fetchSettlements (db : DBState) (u : String) (scope : Option String) : List SettlementRow :=
  match scope with
  | some g => db.settlements.filter (fun s => s.is_active && s.group_id == some g)
  | none => db.settlements.filter (fun s => s.is_active && involvedSettlement u s)

/-- `calculate_user_balances(user_id, group_id)` (sqlite_service.py lines
675-714; the dynamodb_service.py body at lines 1568-1619 is identical):
fetch the scoped expenses and settlements, aggregate, and drop entries
within the 0.01 tolerance. -/
def calculate_user_balances (db : DBState) (u : String) (scope : Option String) :
    String → Option ℚ :=
  balancesFromLists u (fetchExpenses db u scope) (fetchSettlements db u scope)

/-- `create_settlement`: a new settlement row is appended to the store. -/
def addSettlement (db : DBState) (s : SettlementRow) : DBState :=
  { db with settlements := db.settlements ++ [s] }

/-- Net contribution of a single split row of an expense paid by `payer`
to the entry of key `k` in user `u`'s balance dict. -/
def splitContrib (u payer k : String) (s : SplitOut) : ℚ :=
  if payer = u ∧ s.user_id ≠ u then (if k = s.user_id then s.amount else 0)
  else if payer ≠ u ∧ s.user_id = u then (if k = payer then -s.amount else 0)
  else 0

/-- Net contribution of one expense to the entry of key `k` in user `u`'s
balance dict. -/
def expenseContrib (u k : String) (e : ExpenseRow) : ℚ :=
  (e.splits.map (splitContrib u e.paid_by_id k)).sum

/-- Net contribution of one settlement to the entry of key `k` in user
`u`'s balance dict. -/
def settlementContrib (u k : String) (s : SettlementRow) : ℚ :=
  if s.from_user_id = u then (if k = s.to_user_id then s.amount else 0)
  else if s.to_user_id = u then (if k = s.from_user_id then -s.amount else 0)
  else 0

/-- The split-related fields of an `update_expense` request
(`ExpenseUpdate` schema): every field is optional. -/
structure ExpenseUpdateReq where
  amount : Option ℚ := none
  split_type : Option String := none
  split_with_user_ids : Option (List String) := none
  splits : Option (List (String × ℚ)) := none
deriving Repr, DecidableEq

/-- Split replacement of `update_expense` (routers/expenses.py lines
537-570): when any split-related field is present, all prior split rows
are deleted, then new rows are created only in the `equal` branch (when
`split_with_user_ids` is present; empty selection raises HTTP 400) or the
`exact` branch (when `splits` is present); every other combination —
in particular `percentage` and `shares` — creates nothing.  The result is
the final list of split rows of the expense. -/
def updateExpenseSplits (oldSplits : List SplitOut) (old_split_type : String)
    (old_amount : ℚ) (r : ExpenseUpdateReq) : Except PyErr (List SplitOut) :=
  let new_amount := r.amount.getD old_amount
  if r.split_type.isSome || r.split_with_user_ids.isSome || r.splits.isSome then
    let split_type := r.split_type.getD old_split_type
    if split_type = "equal" then
      match r.split_with_user_ids with
      | some ids =>
        let user_ids := ids.dedup
        if user_ids.length = 0 then .error (.httpError 400)
        else .ok (user_ids.map (fun u =>
          { user_id := u, amount := round2 (new_amount / user_ids.length) }))
      | none => .ok []
    else if split_type = "exact" then
      match r.splits with
      | some ss => .ok (ss.map (fun s => { user_id := s.1, amount := s.2 }))
      | none => .ok []
    else .ok []
  else .ok oldSplits

/-- The fields of a stored expense dict that `submit_draft_expense` reads
for its guards: `draft.get("is_draft", False)` and `draft.get("paid_by_id")`. -/
structure StoredExpense where
  paid_by_id : String
  is_draft : Bool
deriving Repr, DecidableEq

/-- The guard sequence of `submit_draft_expense` (routers/expenses.py lines
380-389): missing expense gives HTTP 404, an existing non-draft gives
HTTP 400 ("This expense is not a draft"), a draft of another payer gives
HTTP 403; otherwise submission proceeds. -/
def submitDraftCheck (draft : Option StoredExpense) (caller : String) :
    Except Nat StoredExpense :=
  match draft with
  | none => .error 404
  | some d =>
    if ¬ d.is_draft then .error 400
    else if d.paid_by_id ≠ caller then .error 403
    else .ok d

/-- The keyword parameters accepted by `SQLiteService.create_expense`
(sqlite_service.py lines 300-304). -/
def sqlite_create_expense_params : List String :=
  ["amount", "description", "paid_by_id", "group_id", "split_type", "category",
   "currency", "expense_date", "notes", "splits"]

/-- The keyword parameters accepted by `DynamoDBService.create_expense`
(dynamodb_service.py lines 727-731). -/
def dynamodb_create_expense_params : List String :=
  ["amount", "description", "paid_by_id", "group_id", "split_type", "category",
   "currency", "expense_date", "notes", "splits"]

/-- The keyword arguments the `create_expense` router passes to
`db_service.create_expense` (routers/expenses.py lines 144-156). -/
def router_create_expense_kwargs : List String :=
  ["amount", "description", "paid_by_id", "group_id", "split_type", "category",
   "currency", "expense_date", "notes", "splits", "is_draft"]

/-- Python keyword binding: a call with keyword arguments `kwargs` binds
against a parameter list `params` (no `**kwargs` catch-all in either
service) exactly when every keyword names a declared parameter; otherwise
the call raises `TypeError` before the function body runs. -/
def kwargsAccepted (params kwargs : List String) : Bool :=
  kwargs.all (fun k => params.contains k)

/-- The keys of the dict `SQLiteService._expense_to_dict` returns for a
stored expense (sqlite_service.py lines 424-444). -/
def sqlite_expense_dict_keys : List String :=
  ["id", "amount", "currency", "description", "notes", "category", "paid_by_id",
   "group_id", "split_type", "expense_date", "receipt_url", "is_active",
   "is_settled", "created_at", "updated_at"]

/-- The keys of the item dict `DynamoDBService.create_expense` persists
(dynamodb_service.py lines 748-763). -/
def dynamodb_expense_item_keys : List String :=
  ["expense_id", "amount", "currency", "description", "notes", "category",
   "paid_by_id", "group_id", "split_type", "expense_date", "is_active",
   "is_settled", "created_at", "updated_at"]

/-- A recent expense of user `A` not involving `B`: `A` paid, `C` owes 5. -/
def recentExpenseAC : ExpenseRow :=
  { paid_by_id := "A", splits := [{ user_id := "C", amount := 5 }], created_at := 2 }

/-- An older expense between `B` and `A`: `B` paid, `A` owes 100. -/
def oldExpenseBA : ExpenseRow :=
  { paid_by_id := "B", splits := [{ user_id := "A", amount := 100 }], created_at := 1 }

/-- A repository state in which user `A` is involved in 1001 active
expenses: 1000 recent ones shared only with `C`, and one older one shared
with `B`.  `A`'s expense fetch truncates to the 1000 most recent rows and
so misses the shared expense, while `B`'s fetch (only the shared expense)
keeps it. -/
def truncationState : DBState :=
  { expenses := List.replicate 1000 recentExpenseAC ++ [oldExpenseBA],
    settlements := [] }

lemma list_toFinset_map {α β : Type} [DecidableEq α] [DecidableEq β] (f : α → β) (l : List α) :
    (l.map f).toFinset = l.toFinset.image f := by
  ext b
  simp

lemma list_toFinset_dedup {α : Type} [DecidableEq α] (l : List α) :
    l.dedup.toFinset = l.toFinset := by
  ext b
  simp [List.mem_dedup]

lemma sum_map_const {α : Type} (l : List α) (c : ℚ) :
    (l.map (fun _ => c)).sum = l.length * c := by
  induction l with
  | nil => simp
  | cons a t ih =>
      simp [ih]
      ring

lemma abs_rhe_sub (q : ℚ) : |(rhe q : ℚ) - q| ≤ 1/2 := by
  unfold rhe
  set f := ⌊q⌋ with hf
  have h0 : (f : ℚ) ≤ q := Int.floor_le q
  have h1 : q < f + 1 := Int.lt_floor_add_one q
  by_cases hlt : q - f < 1/2
  · simp only [hlt, if_true]
    rw [abs_sub_comm, abs_of_nonneg (by linarith)]
    linarith
  · by_cases hgt : 1/2 < q - f
    · simp only [hlt, hgt, if_false, if_true]
      push_cast
      rw [abs_of_nonneg (by linarith)]
      linarith
    · have heq : q - f = 1/2 := le_antisymm (not_lt.mp hgt) (not_lt.mp hlt)
      by_cases hev : f % 2 = 0
      · simp only [hlt, hgt, hev, if_false, if_true]
        rw [abs_sub_comm, abs_of_nonneg (by linarith)]
        linarith
      · simp only [hlt, hgt, hev, if_false]
        push_cast
        rw [abs_of_nonneg (by linarith)]
        linarith

lemma abs_round2_sub (q : ℚ) : |round2 q - q| ≤ 1/200 := by
  unfold round2
  have h := abs_rhe_sub (q * 100)
  have h100 : |(rhe (q * 100) : ℚ) / 100 - q| = |(rhe (q * 100) : ℚ) - q * 100| / 100 := by
    rw [← abs_of_pos (show (0:ℚ) < 100 by norm_num), ← abs_div]
    congr 1
    field_simp
    ring
  rw [h100]
  linarith

/-- C1 (amended): every participant of an `Equal` split receives the same
independently rounded amount `round2 (T / n)`; the sum of the allocation is
`n * round2 (T / n)`, which can differ from the total `T` by up to half a
minor unit per participant. -/
theorem c1_equal_split_rounded_sum (T : ℚ) (payer : String) (ids : List String) :
    allocSum (equalAlloc T payer ids) =
      (equalAlloc T payer ids).length * round2 (T / (equalAlloc T payer ids).length)
    ∧ |allocSum (equalAlloc T payer ids) - T| ≤ (equalAlloc T payer ids).length * (1/200) := by
  have hlen : (equalAlloc T payer ids).length = ((payer :: ids).dedup).length := by
    simp [equalAlloc]
  have hpos : 0 < ((payer :: ids).dedup).length := by
    have : payer ∈ (payer :: ids).dedup := by
      simp [List.mem_dedup]
    exact List.length_pos.mpr (List.ne_nil_of_mem this)
  have hsum : allocSum (equalAlloc T payer ids) =
      ((payer :: ids).dedup).length * round2 (T / ((payer :: ids).dedup).length) := by
    simp only [allocSum, equalAlloc, List.map_map]
    rw [show ((fun s => SplitOut.amount s) ∘ fun u =>
        ({ user_id := u, amount := round2 (T / ((payer :: ids).dedup).length) } : SplitOut)) =
        (fun _ => round2 (T / ((payer :: ids).dedup).length)) from rfl]
    exact sum_map_const _ _
  constructor
  · rw [hsum, hlen]
  · rw [hsum, hlen]
    set n : ℚ := (((payer :: ids).dedup).length : ℚ) with hn
    have hnpos : 0 < n := by
      rw [hn]
      exact_mod_cast hpos
    have hT : T = n * (T / n) := by
      field_simp
    have hb := abs_round2_sub (T / n)
    calc |n * round2 (T / n) - T| = |n * (round2 (T / n) - T / n)| := by
            rw [mul_sub]
            congr 1
            rw [← hT]
      _ = n * |round2 (T / n) - T / n| := by
            rw [abs_mul, abs_of_pos hnpos]
      _ ≤ n * (1/200) := by
            exact mul_le_mul_of_nonneg_left hb (le_of_lt hnpos)

lemma sum_map_neg {α : Type} (l : List α) (f : α → ℚ) :
    (l.map (fun x => -(f x))).sum = -((l.map f).sum) := by
  induction l with
  | nil => simp
  | cons a t ih =>
      simp [ih]
      ring

lemma updateBal_apply (b : Balances) (key : String) (v : ℚ) (q : String) :
    updateBal b key v q = if q = key then v else b q := rfl

lemma applySplitStep_apply (u payer : String) (b : Balances) (s : SplitOut) (k : String) :
    applySplitStep u payer b s k = b k + splitContrib u payer k s := by
  unfold applySplitStep splitContrib
  by_cases h1 : payer = u ∧ s.user_id ≠ u
  · rw [if_pos h1, updateBal_apply, if_pos h1]
    by_cases hk : k = s.user_id
    · rw [if_pos hk, if_pos hk, hk]
    · rw [if_neg hk, if_neg hk, add_zero]
  · rw [if_neg h1, if_neg h1]
    by_cases h2 : payer ≠ u ∧ s.user_id = u
    · rw [if_pos h2, updateBal_apply, if_pos h2]
      by_cases hk : k = payer
      · rw [if_pos hk, if_pos hk, hk, sub_eq_add_neg]
      · rw [if_neg hk, if_neg hk, add_zero]
    · rw [if_neg h2, if_neg h2, add_zero]

lemma foldl_applySplitStep (u payer : String) (splits : List SplitOut) (b : Balances)
    (k : String) :
    (splits.foldl (applySplitStep u payer) b) k
      = b k + (splits.map (splitContrib u payer k)).sum := by
  induction splits generalizing b with
  | nil => simp
  | cons s t ih =>
      simp only [List.foldl_cons, List.map_cons, List.sum_cons]
      rw [ih, applySplitStep_apply]
      ring

lemma applyExpenseStep_apply (u : String) (b : Balances) (e : ExpenseRow) (k : String) :
    applyExpenseStep u b e k = b k + expenseContrib u k e := by
  unfold applyExpenseStep expenseContrib
  exact foldl_applySplitStep u e.paid_by_id e.splits b k

lemma foldl_applyExpenseStep (u : String) (es : List ExpenseRow) (b : Balances) (k : String) :
    (es.foldl (applyExpenseStep u) b) k = b k + (es.map (expenseContrib u k)).sum := by
  induction es generalizing b with
  | nil => simp
  | cons e t ih =>
      simp only [List.foldl_cons, List.map_cons, List.sum_cons]
      rw [ih, applyExpenseStep_apply]
      ring

lemma applySettlementStep_apply (u : String) (b : Balances) (s : SettlementRow) (k : String) :
    applySettlementStep u b s k = b k + settlementContrib u k s := by
  unfold applySettlementStep settlementContrib
  by_cases h1 : s.from_user_id = u
  · rw [if_pos h1, updateBal_apply, if_pos h1]
    by_cases hk : k = s.to_user_id
    · rw [if_pos hk, if_pos hk, hk]
    · rw [if_neg hk, if_neg hk, add_zero]
  · rw [if_neg h1, if_neg h1]
    by_cases h2 : s.to_user_id = u
    · rw [if_pos h2, updateBal_apply, if_pos h2]
      by_cases hk : k = s.from_user_id
      · rw [if_pos hk, if_pos hk, hk, sub_eq_add_neg]
      · rw [if_neg hk, if_neg hk, add_zero]
    · rw [if_neg h2, if_neg h2, add_zero]

lemma foldl_applySettlementStep (u : String) (ss : List SettlementRow) (b : Balances)
    (k : String) :
    (ss.foldl (applySettlementStep u) b) k
      = b k + (ss.map (settlementContrib u k)).sum := by
  induction ss generalizing b with
  | nil => simp
  | cons s t ih =>
      simp only [List.foldl_cons, List.map_cons, List.sum_cons]
      rw [ih, applySettlementStep_apply]
      ring

/-- The raw balance dict is the pointwise sum of per-expense and
per-settlement contributions. -/
lemma balancesRaw_eq (u : String) (es : List ExpenseRow) (ss : List SettlementRow)
    (k : String) :
    balancesRaw u es ss k
      = (es.map (expenseContrib u k)).sum + (ss.map (settlementContrib u k)).sum := by
  unfold balancesRaw
  rw [foldl_applySettlementStep, foldl_applyExpenseStep]
  simp

lemma splitContrib_antisymm (A B payer : String) (hAB : A ≠ B) (s : SplitOut) :
    splitContrib A payer B s = - splitContrib B payer A s := by
  unfold splitContrib
  split_ifs <;> (try casesm* _ ∧ _) <;> first | rfl | (exfalso; cc) | ring

lemma expenseContrib_antisymm (A B : String) (hAB : A ≠ B) (e : ExpenseRow) :
    expenseContrib A B e = - expenseContrib B A e := by
  unfold expenseContrib
  rw [← sum_map_neg]
  exact congrArg List.sum (List.map_congr_left
    (fun s _ => splitContrib_antisymm A B e.paid_by_id hAB s))

lemma settlementContrib_antisymm (A B : String) (hAB : A ≠ B) (s : SettlementRow) :
    settlementContrib A B s = - settlementContrib B A s := by
  unfold settlementContrib
  split_ifs <;> first | rfl | (exfalso; cc) | ring

lemma expenseContrib_eq_zero_of_not_involved (u k : String) (e : ExpenseRow)
    (h : involvedExpense u e = false) : expenseContrib u k e = 0 := by
  simp only [involvedExpense, Bool.or_eq_false_iff, beq_eq_false_iff_ne, ne_eq,
    List.any_eq_false] at h
  obtain ⟨hpaid, hsplits⟩ := h
  unfold expenseContrib
  have : ∀ s ∈ e.splits, splitContrib u e.paid_by_id k s = 0 := by
    intro s hs
    have hsu : ¬ s.user_id = u := by
      have := hsplits s hs
      simpa using this
    unfold splitContrib
    rw [if_neg (fun hc => hpaid hc.1), if_neg (fun hc => hsu hc.2)]
  rw [List.map_congr_left this]
  simp

lemma settlementContrib_eq_zero_of_not_involved (u k : String) (s : SettlementRow)
    (h : involvedSettlement u s = false) : settlementContrib u k s = 0 := by
  simp only [involvedSettlement, Bool.or_eq_false_iff, beq_eq_false_iff_ne, ne_eq] at h
  unfold settlementContrib
  rw [if_neg h.1, if_neg h.2]

lemma sum_filter_and {α : Type} (l : List α) (p q : α → Bool) (f : α → ℚ)
    (hz : ∀ a, q a = false → f a = 0) :
    ((l.filter (fun a => p a && q a)).map f).sum = ((l.filter p).map f).sum := by
  induction l with
  | nil => simp
  | cons a t ih =>
      by_cases hp : p a
      · by_cases hq : q a
        · simp [List.filter_cons, hp, hq, ih]
        · have hfa : f a = 0 := hz a (Bool.eq_false_iff.mpr hq)
          simp [List.filter_cons, hp, hq, ih, hfa]
      · simp [List.filter_cons, hp, ih]

lemma insertByCreatedDesc_perm (e : ExpenseRow) (l : List ExpenseRow) :
    (insertByCreatedDesc e l).Perm (e :: l) := by
  induction l with
  | nil => exact List.Perm.refl _
  | cons a t ih =>
      unfold insertByCreatedDesc
      by_cases h : a.created_at ≤ e.created_at
      · rw [if_pos h]
      · rw [if_neg h]
        exact (ih.cons a).trans (List.Perm.swap e a t)

lemma sortByCreatedDesc_perm (l : List ExpenseRow) : (sortByCreatedDesc l).Perm l := by
  induction l with
  | nil => exact List.Perm.refl _
  | cons a t ih =>
      unfold sortByCreatedDesc
      exact (insertByCreatedDesc_perm a (sortByCreatedDesc t)).trans (ih.cons a)

/-- When at most 1000 rows match, the truncated fetch is a permutation of
the matching rows. -/
lemma fetchExpenses_perm_of_le (db : DBState) (u : String) (scope : Option String)
    (h : (userExpenseCandidates db u scope).length ≤ 1000) :
    (fetchExpenses db u scope).Perm (userExpenseCandidates db u scope) := by
  unfold fetchExpenses
  rw [List.take_of_length_le]
  · exact sortByCreatedDesc_perm _
  · rw [(sortByCreatedDesc_perm (userExpenseCandidates db u scope)).length_eq]
    exact h

/-- The raw balance of `A` against key `B` is the negation of the raw
balance of `B` against key `A`, in both scopes, provided neither user's
expense fetch is truncated by the 1000-row limit. -/
lemma balancesRaw_antisymm (db : DBState) (scope : Option String) (A B : String)
    (hAB : A ≠ B)
    (hA : (userExpenseCandidates db A scope).length ≤ 1000)
    (hB : (userExpenseCandidates db B scope).length ≤ 1000) :
    balancesRaw A (fetchExpenses db A scope) (fetchSettlements db A scope) B
      = - balancesRaw B (fetchExpenses db B scope) (fetchSettlements db B scope) A := by
  have hBA : B ≠ A := fun h => hAB h.symm
  rw [balancesRaw_eq, balancesRaw_eq]
  rw [((fetchExpenses_perm_of_le db A scope hA).map (expenseContrib A B)).sum_eq,
      ((fetchExpenses_perm_of_le db B scope hB).map (expenseContrib B A)).sum_eq]
  cases scope with
  | some g =>
      simp only [userExpenseCandidates, fetchSettlements]
      rw [show (db.expenses.filter (fun e => e.is_active && e.group_id == some g)).map
            (expenseContrib A B)
          = (db.expenses.filter (fun e => e.is_active && e.group_id == some g)).map
            (fun e => -(expenseContrib B A e)) from
          List.map_congr_left (fun e _ => expenseContrib_antisymm A B hAB e)]
      rw [show (db.settlements.filter (fun s => s.is_active && s.group_id == some g)).map
            (settlementContrib A B)
          = (db.settlements.filter (fun s => s.is_active && s.group_id == some g)).map
            (fun s => -(settlementContrib B A s)) from
          List.map_congr_left (fun s _ => settlementContrib_antisymm A B hAB s)]
      rw [sum_map_neg, sum_map_neg]
      ring
  | none =>
      simp only [userExpenseCandidates, fetchSettlements]
      rw [sum_filter_and db.expenses ExpenseRow.is_active (involvedExpense A)
            (expenseContrib A B) (expenseContrib_eq_zero_of_not_involved A B),
          sum_filter_and db.expenses ExpenseRow.is_active (involvedExpense B)
            (expenseContrib B A) (expenseContrib_eq_zero_of_not_involved B A),
          sum_filter_and db.settlements SettlementRow.is_active (involvedSettlement A)
            (settlementContrib A B) (settlementContrib_eq_zero_of_not_involved A B),
          sum_filter_and db.settlements SettlementRow.is_active (involvedSettlement B)
            (settlementContrib B A) (settlementContrib_eq_zero_of_not_involved B A)]
      rw [show (db.expenses.filter ExpenseRow.is_active).map (expenseContrib A B)
          = (db.expenses.filter ExpenseRow.is_active).map
            (fun e => -(expenseContrib B A e)) from
          List.map_congr_left (fun e _ => expenseContrib_antisymm A B hAB e)]
      rw [show (db.settlements.filter SettlementRow.is_active).map (settlementContrib A B)
          = (db.settlements.filter SettlementRow.is_active).map
            (fun s => -(settlementContrib B A s)) from
          List.map_congr_left (fun s _ => settlementContrib_antisymm A B hAB s)]
      rw [sum_map_neg, sum_map_neg]
      ring

/-- C3 (amended): for any two distinct users and any scope, provided the
number of rows matching each user's scoped expense fetch is at most the
1000-row fetch limit (so neither window truncates), the balance map is
antisymmetric: the entry `B` carries in `A`'s balance map is exactly the
negation of the entry `A` carries in `B`'s balance map, and the two
entries are dropped by the 0.01 tolerance filter in tandem.  With more
than 1000 matching rows the truncation to the 1000 most recent rows can
remove a shared expense from one side only and break the symmetry. -/
theorem c3_balance_antisymmetry (db : DBState) (scope : Option String) (A B : String)
    (hAB : A ≠ B)
    (hA : (userExpenseCandidates db A scope).length ≤ 1000)
    (hB : (userExpenseCandidates db B scope).length ≤ 1000) :
    calculate_user_balances db A scope B
      = Option.map (fun v => -v) (calculate_user_balances db B scope A) := by
  unfold calculate_user_balances balancesFromLists
  rw [balancesRaw_antisymm db scope A B hAB hA hB]
  rw [abs_neg]
  by_cases hc :
      1/100 < |balancesRaw B (fetchExpenses db B scope) (fetchSettlements db B scope) A|
  · rw [if_pos hc, if_pos hc]
    rfl
  · rw [if_neg hc, if_neg hc]
    rfl

/-- C4: the balance map is invariant under any permutation of the expense
list and of the settlement list supplied to the balance engine: the
aggregation is a commutative accumulation over a map. -/
theorem c4_order_independence (u : String) (es es' : List ExpenseRow)
    (ss ss' : List SettlementRow) (he : es.Perm es') (hs : ss.Perm ss') :
    balancesFromLists u es ss = balancesFromLists u es' ss' := by
  have hraw : ∀ k, balancesRaw u es ss k = balancesRaw u es' ss' k := by
    intro k
    rw [balancesRaw_eq, balancesRaw_eq,
      (he.map (expenseContrib u k)).sum_eq, (hs.map (settlementContrib u k)).sum_eq]
  funext k
  unfold balancesFromLists
  rw [hraw k]

/-- C5: if `A`'s balance map carries `-X` against `B` and an active global
settlement of `X` from `A` to `B` is then recorded, the recomputed entry
for `B` becomes 0 and is dropped from the returned map by the 0.01
tolerance filter. -/
theorem c5_settlement_cancellation (db : DBState) (A B : String) (X : ℚ)
    (h : calculate_user_balances db A none B = some (-X)) :
    calculate_user_balances
      (addSettlement db { from_user_id := A, to_user_id := B, amount := X })
      A none B = none := by
  unfold calculate_user_balances balancesFromLists at h ⊢
  have hraw : balancesRaw A (fetchExpenses db A none) (fetchSettlements db A none) B = -X := by
    by_cases hc :
        1/100 < |balancesRaw A (fetchExpenses db A none) (fetchSettlements db A none) B|
    · rw [if_pos hc] at h
      exact Option.some.inj h
    · rw [if_neg hc] at h
      exact absurd h (Option.noConfusion)
  have hexp : fetchExpenses
      (addSettlement db { from_user_id := A, to_user_id := B, amount := X }) A none
      = fetchExpenses db A none := rfl
  have hset : fetchSettlements
      (addSettlement db { from_user_id := A, to_user_id := B, amount := X }) A none
      = fetchSettlements db A none
        ++ [{ from_user_id := A, to_user_id := B, amount := X }] := by
    simp only [fetchSettlements, addSettlement, List.filter_append]
    congr 1
    simp [involvedSettlement]
  rw [hexp, hset]
  have hnew : balancesRaw A (fetchExpenses db A none)
      (fetchSettlements db A none ++ [{ from_user_id := A, to_user_id := B, amount := X }]) B
      = 0 := by
    rw [balancesRaw_eq, List.map_append, List.sum_append]
    rw [balancesRaw_eq] at hraw
    simp only [List.map_cons, List.map_nil, List.sum_cons, List.sum_nil]
    have hcontrib : settlementContrib A B
        { from_user_id := A, to_user_id := B, amount := X, is_active := true,
          group_id := none } = X := by
      unfold settlementContrib
      simp
    rw [hcontrib]
    linarith
  rw [hnew]
  norm_num

/-- C7 (amended): in an `Exact` split with the payer absent from the
supplied splits, the payer's implicit share `total - sum(others)` is
appended only when it is strictly positive; when the explicit amounts reach
or exceed the total the supplied splits are committed unchanged, with no
payer row and no error; no `InvalidSplit` failure exists in this branch
(an empty participant list simply gives the payer the whole amount). -/
theorem c7_exact_payer_remainder (amount : ℚ) (payer : String) (splits : List (String × ℚ))
    (habsent : splits.any (fun s => s.1 == payer) = false) :
    (0 < amount - (splits.map Prod.snd).sum →
      exactAlloc amount payer splits =
        splits.map (fun s => { user_id := s.1, amount := s.2 : SplitOut })
          ++ [{ user_id := payer, amount := amount - (splits.map Prod.snd).sum }])
    ∧ (amount - (splits.map Prod.snd).sum ≤ 0 →
      exactAlloc amount payer splits =
        splits.map (fun s => { user_id := s.1, amount := s.2 : SplitOut })) := by
  constructor
  · intro hpos
    simp only [exactAlloc, habsent, Bool.false_eq_true, if_false, gt_iff_lt, hpos, if_true]
  · intro hle
    simp only [exactAlloc, habsent, Bool.false_eq_true, if_false, gt_iff_lt,
      not_lt.mpr hle, if_false]

/-- C8 (amended): in a `Shares` split the allocation is an unhandled
`ZeroDivisionError` (not a recoverable `InvalidSplit`) whenever the supplied
share counts sum to zero and at least one participant is listed; when the
sum of shares is non-zero (including negative sums) every participant gets
`round(total * share / total_shares, 2)`; with no participants the division
is never executed and the result is an empty split list. -/
theorem c8_shares_zero_division (amount : ℚ) (splits : List (String × ℚ)) :
    (splits ≠ [] → (splits.map Prod.snd).sum = 0 →
      sharesAlloc amount splits = .error .zeroDivision)
    ∧ ((splits.map Prod.snd).sum ≠ 0 →
      sharesAlloc amount splits = .ok (splits.map (fun s =>
        { user_id := s.1, amount := round2 (amount * s.2 / (splits.map Prod.snd).sum),
          shares := some s.2 })))
    ∧ (splits = [] → sharesAlloc amount splits = .ok []) := by
  refine ⟨fun hne hz => ?_, fun hnz => ?_, fun hnil => ?_⟩
  · simp only [sharesAlloc]
    rw [if_pos ⟨hne, hz⟩]
  · simp only [sharesAlloc]
    rw [if_neg (fun hc => hnz hc.2)]
  · subst hnil
    simp [sharesAlloc]

/-- C10: the `Equal` split allocation depends only on the set of distinct
participants consisting of the payer together with the listed user ids:
listing the payer explicitly or repeating an id never changes the committed
rows; the payer is always a participant; every participant receives
`round(total / n, 2)` where `n` is the number of distinct participants
including the payer; and exactly `n` rows are produced. -/
theorem c10_equal_payer_dedup (amt : ℚ) (payer : String) (ids1 ids2 : List String)
    (h : insert payer ids1.toFinset = insert payer ids2.toFinset) :
    (equalAlloc amt payer ids1).toFinset = (equalAlloc amt payer ids2).toFinset
    ∧ payer ∈ (equalAlloc amt payer ids1).map SplitOut.user_id
    ∧ (∀ s ∈ equalAlloc amt payer ids1,
        s.amount = round2 (amt / (insert payer ids1.toFinset).card))
    ∧ (equalAlloc amt payer ids1).length = (insert payer ids1.toFinset).card := by
  have hlen : ∀ ids : List String,
      ((payer :: ids).dedup).length = (insert payer ids.toFinset).card := by
    intro ids
    rw [← List.toFinset_cons, List.card_toFinset]
  refine ⟨?_, ?_, ?_, ?_⟩
  · simp only [equalAlloc, hlen, h]
    rw [list_toFinset_map, list_toFinset_map, list_toFinset_dedup, list_toFinset_dedup,
      List.toFinset_cons, List.toFinset_cons, h]
  · simp only [equalAlloc, List.map_map, Function.comp]
    simp only [List.mem_map, List.mem_dedup, List.mem_cons]
    exact ⟨payer, Or.inl rfl, rfl⟩
  · intro s hs
    simp only [equalAlloc, List.mem_map] at hs
    obtain ⟨u, _, rfl⟩ := hs
    simp [hlen]
  · simp [equalAlloc, hlen]

/-- C6 (amended): when an `update_expense` request touches the split
configuration, the prior split rows are deleted and replaced by recomputed
rows only for an `equal` split with `split_with_user_ids` present (equal
shares of the possibly-updated amount over the deduplicated selection,
HTTP 400 on an empty selection) or an `exact` split with `splits` present
(the supplied rows verbatim); for every other effective split type — in
particular `percentage` and `shares` — the prior rows are deleted and
nothing is created, leaving the expense with no splits. -/
theorem c6_update_split_replacement (old : List SplitOut) (oty : String) (amt : ℚ)
    (r : ExpenseUpdateReq) :
    (∀ st, r.split_type = some st → st ≠ "equal" → st ≠ "exact" →
      updateExpenseSplits old oty amt r = .ok [])
    ∧ (∀ ids, r.split_type = some "equal" → r.split_with_user_ids = some ids →
        ids.dedup.length ≠ 0 →
      updateExpenseSplits old oty amt r = .ok (ids.dedup.map (fun u =>
        { user_id := u, amount := round2 ((r.amount.getD amt) / ids.dedup.length) })))
    ∧ (∀ ss, r.split_type = some "exact" → r.splits = some ss →
      updateExpenseSplits old oty amt r
        = .ok (ss.map (fun s => { user_id := s.1, amount := s.2 }))) := by
  refine ⟨fun st hst h1 h2 => ?_, fun ids hst hids hlen => ?_, fun ss hst hss => ?_⟩
  · simp only [updateExpenseSplits, hst]
    simp [h1, h2]
  · simp only [updateExpenseSplits, hst, hids]
    simp [hlen]
  · simp only [updateExpenseSplits, hst, hss]
    simp

/-- C9 (amended): `submit_draft` fails with HTTP 404 when the expense is
missing, with HTTP 400 — not `NotFound` — when the expense exists but is
not a draft, with HTTP 403 when the caller is not the draft's payer, and
proceeds exactly when the expense is a draft whose payer is the caller. -/
theorem c9_submit_draft_guards (d : StoredExpense) (caller : String) :
    (submitDraftCheck none caller = .error 404)
    ∧ (d.is_draft = false → submitDraftCheck (some d) caller = .error 400)
    ∧ (d.is_draft = true → d.paid_by_id ≠ caller →
        submitDraftCheck (some d) caller = .error 403)
    ∧ (d.is_draft = true → d.paid_by_id = caller →
        submitDraftCheck (some d) caller = .ok d) := by
  refine ⟨rfl, fun h => ?_, fun h hp => ?_, fun h hp => ?_⟩
  · simp [submitDraftCheck, h]
  · simp [submitDraftCheck, h, hp]
  · simp [submitDraftCheck, h, hp]

/-- C2: the draft feature is broken at the service layer.  The
`create_expense` router passes the keyword argument `is_draft` to
`db_service.create_expense`, but neither `SQLiteService.create_expense`
nor `DynamoDBService.create_expense` declares that parameter, so the call
raises `TypeError` before any row is written; moreover no stored expense
representation carries an `is_draft` key (the SQLite model and
`_expense_to_dict` omit it, as does the DynamoDB item), so
`draft.get("is_draft", False)` is always `False` and `submit_draft`
rejects every stored expense with HTTP 400. -/
theorem c2_draft_pipeline_broken :
    kwargsAccepted sqlite_create_expense_params router_create_expense_kwargs = false
    ∧ kwargsAccepted dynamodb_create_expense_params router_create_expense_kwargs = false
    ∧ sqlite_expense_dict_keys.contains "is_draft" = false
    ∧ dynamodb_expense_item_keys.contains "is_draft" = false
    ∧ submitDraftCheck (some { paid_by_id := "A", is_draft := false }) "A" = .error 400 :=
  ⟨by decide, by decide, by decide, by decide, rfl⟩

section ConcreteEvaluation

attribute [local semireducible] Rat.mul Rat.add Rat.sub Rat.inv

/-- C1 (counterexample): an equal split of 10.00 between the payer and two
other users gives each participant 3.33, so the committed splits sum to
9.99, not the claimed exact total 10.00. -/
theorem c1_counterexample :
    allocSum (equalAlloc 10 "A" ["B", "C"]) = 999/100 ∧ (999/100 : ℚ) ≠ 10 := by
  constructor
  · decide
  · norm_num

/-- C7 (counterexample): an exact split of 1000 with the single explicit
split `{B: 1200}` and the payer `A` absent commits the over-allocated row
unchanged with no payer row and raises no error, and an exact split with no
participants at all assigns the payer the full amount instead of failing,
contradicting the claimed `InvalidSplit` failures. -/
theorem c7_counterexample :
    exactAlloc 1000 "A" [("B", 1200)] =
      [{ user_id := "B", amount := 1200, percentage := none, shares := none }]
    ∧ exactAlloc 1000 "A" [] =
      [{ user_id := "A", amount := 1000, percentage := none, shares := none }] := by
  constructor
  · decide
  · decide

/-- C7 (witness): the scenario of the specification — exact split of 1000
with `{B: 400, C: 300}` and payer `A` unlisted gives `A` the implicit
remainder 300. -/
theorem c7_witness :
    ([(("B":String), (400:ℚ)), ("C", 300)].any (fun s => s.1 == "A") = false)
    ∧ 0 < (1000:ℚ) - ([(("B":String), (400:ℚ)), ("C", 300)].map Prod.snd).sum
    ∧ exactAlloc 1000 "A" [("B", 400), ("C", 300)] =
        [(("B":String), (400:ℚ)), ("C", 300)].map
            (fun s => { user_id := s.1, amount := s.2 : SplitOut })
          ++ [{ user_id := "A",
                amount := 1000 - ([(("B":String), (400:ℚ)), ("C", 300)].map Prod.snd).sum }] :=
  ⟨by decide, by decide,
    (c7_exact_payer_remainder 1000 "A" [("B", 400), ("C", 300)] (by decide)).1 (by decide)⟩

/-- C8 (counterexample): a shares split with one participant holding zero
shares reaches the division with divisor `total_shares = 0` and crashes
with an unhandled `ZeroDivisionError`; no recoverable `InvalidSplit` error
is produced. -/
theorem c8_counterexample :
    sharesAlloc 100 [("B", 0)] = .error .zeroDivision := by
  rfl

/-- C8 (witness): with shares `{B: 2, C: 0}` summing to 2, the allocation
succeeds and divides by the share total. -/
theorem c8_witness :
    (([(("B":String), (2:ℚ)), ("C", 0)].map Prod.snd).sum ≠ 0)
    ∧ sharesAlloc 100 [("B", 2), ("C", 0)] =
        .ok ([(("B":String), (2:ℚ)), ("C", 0)].map (fun s =>
          { user_id := s.1,
            amount := round2 (100 * s.2 / ([(("B":String), (2:ℚ)), ("C", 0)].map Prod.snd).sum),
            shares := some s.2 })) :=
  ⟨by decide, (c8_shares_zero_division 100 [("B", 2), ("C", 0)]).2.1 (by decide)⟩

/-- C10 (witness): listing the payer `A` explicitly and repeating `B` gives
the same committed allocation as listing `B` alone. -/
theorem c10_witness :
    (insert "A" (["B", "A", "B"] : List String).toFinset
      = insert "A" (["B"] : List String).toFinset)
    ∧ (equalAlloc 30 "A" ["B", "A", "B"]).toFinset = (equalAlloc 30 "A" ["B"]).toFinset :=
  ⟨by decide, (c10_equal_payer_dedup 30 "A" ["B", "A", "B"] ["B"] (by decide)).1⟩

/-- C3 (witness): in a store with one expense paid by `A` and split to `B`
for 40 (one matching row on each side, far below the 1000-row limit), `A`
sees `+40` against `B` and `B` sees `-40` against `A`. -/
theorem c3_witness :
    ("A" : String) ≠ "B"
    ∧ (userExpenseCandidates
        { expenses := [{ paid_by_id := "A", splits := [{ user_id := "B", amount := 40 }] }],
          settlements := [] } "A" none).length ≤ 1000
    ∧ (userExpenseCandidates
        { expenses := [{ paid_by_id := "A", splits := [{ user_id := "B", amount := 40 }] }],
          settlements := [] } "B" none).length ≤ 1000
    ∧ calculate_user_balances
        { expenses := [{ paid_by_id := "A", splits := [{ user_id := "B", amount := 40 }] }],
          settlements := [] } "A" none "B"
      = Option.map (fun v => -v)
        (calculate_user_balances
          { expenses := [{ paid_by_id := "A", splits := [{ user_id := "B", amount := 40 }] }],
            settlements := [] } "B" none "A") :=
  ⟨by decide, by decide, by decide,
    c3_balance_antisymmetry
      { expenses := [{ paid_by_id := "A", splits := [{ user_id := "B", amount := 40 }] }],
        settlements := [] } none "A" "B" (by decide) (by decide) (by decide)⟩

/-- C3 (counterexample): in `truncationState`, user `A` is involved in
1001 active expenses, so `A`'s fetch keeps only the 1000 most recent rows
and drops the older expense shared with `B`, while `B`'s fetch consists of
exactly that expense: `A`'s balance map has no entry for `B`, yet `B`'s
balance map reports that `A` owes 100 — the map is not antisymmetric. -/
theorem c3_counterexample :
    calculate_user_balances truncationState "A" none "B" = none
    ∧ calculate_user_balances truncationState "B" none "A" = some 100
    ∧ ¬ (calculate_user_balances truncationState "A" none "B"
          = Option.map (fun v => -v) (calculate_user_balances truncationState "B" none "A")) := by
  have hsort : ∀ n, sortByCreatedDesc (List.replicate n recentExpenseAC ++ [oldExpenseBA])
      = List.replicate n recentExpenseAC ++ [oldExpenseBA] := by
    intro n
    induction n with
    | zero => rfl
    | succ m ih =>
        rw [List.replicate_succ, List.cons_append,
          show sortByCreatedDesc
              (recentExpenseAC :: (List.replicate m recentExpenseAC ++ [oldExpenseBA]))
            = insertByCreatedDesc recentExpenseAC
                (sortByCreatedDesc (List.replicate m recentExpenseAC ++ [oldExpenseBA]))
            from rfl,
          ih]
        cases m with
        | zero => rfl
        | succ k => rfl
  have hcandA : userExpenseCandidates truncationState "A" none
      = List.replicate 1000 recentExpenseAC ++ [oldExpenseBA] := by
    simp only [userExpenseCandidates, truncationState]
    rw [List.filter_append, List.filter_replicate_of_pos (by decide)]
    congr 1
  have hcandB : userExpenseCandidates truncationState "B" none = [oldExpenseBA] := by
    simp only [userExpenseCandidates, truncationState]
    rw [List.filter_append, List.filter_replicate_of_neg (by decide), List.nil_append]
    decide
  have hfetchA : fetchExpenses truncationState "A" none
      = List.replicate 1000 recentExpenseAC := by
    unfold fetchExpenses
    rw [hcandA, hsort 1000,
      List.take_left' (List.length_replicate 1000 recentExpenseAC)]
  have hfetchB : fetchExpenses truncationState "B" none = [oldExpenseBA] := by
    unfold fetchExpenses
    rw [hcandB]
    rfl
  have hrawA : balancesRaw "A" (fetchExpenses truncationState "A" none)
      (fetchSettlements truncationState "A" none) "B" = 0 := by
    rw [hfetchA, show fetchSettlements truncationState "A" none = [] from rfl,
      balancesRaw_eq, List.map_replicate, List.sum_replicate,
      show expenseContrib "A" "B" recentExpenseAC = 0 from by decide]
    simp
  have hrawB : balancesRaw "B" (fetchExpenses truncationState "B" none)
      (fetchSettlements truncationState "B" none) "A" = 100 := by
    rw [hfetchB, show fetchSettlements truncationState "B" none = [] from rfl,
      balancesRaw_eq]
    simp only [List.map_cons, List.map_nil, List.sum_cons, List.sum_nil]
    rw [show expenseContrib "B" "A" oldExpenseBA = 100 from by decide]
    norm_num
  have h1 : calculate_user_balances truncationState "A" none "B" = none := by
    simp only [calculate_user_balances, balancesFromLists]
    rw [hrawA]
    norm_num
  have h2 : calculate_user_balances truncationState "B" none "A" = some 100 := by
    simp only [calculate_user_balances, balancesFromLists]
    rw [hrawB]
    norm_num
  exact ⟨h1, h2, fun h => by rw [h1, h2] at h; exact Option.noConfusion h⟩

/-- C4 (witness): swapping two concrete expenses leaves the balance map
unchanged. -/
theorem c4_witness :
    balancesFromLists "A"
      [{ paid_by_id := "A", splits := [{ user_id := "B", amount := 25 }] },
       { paid_by_id := "B", splits := [{ user_id := "A", amount := 10 }] }] []
    = balancesFromLists "A"
      [{ paid_by_id := "B", splits := [{ user_id := "A", amount := 10 }] },
       { paid_by_id := "A", splits := [{ user_id := "B", amount := 25 }] }] [] :=
  c4_order_independence "A" _ _ _ _
    (List.Perm.swap
      ({ paid_by_id := "B", splits := [{ user_id := "A", amount := 10 }] } : ExpenseRow)
      ({ paid_by_id := "A", splits := [{ user_id := "B", amount := 25 }] } : ExpenseRow) [])
    (List.Perm.refl [])

/-- C5 (witness): `A` owes `B` exactly 100; recording a settlement of 100
from `A` to `B` drops `B` from `A`'s balance map. -/
theorem c5_witness :
    calculate_user_balances
      { expenses := [{ paid_by_id := "B", splits := [{ user_id := "A", amount := 100 }] }],
        settlements := [] } "A" none "B" = some (-100)
    ∧ calculate_user_balances
        (addSettlement
          { expenses := [{ paid_by_id := "B", splits := [{ user_id := "A", amount := 100 }] }],
            settlements := [] }
          { from_user_id := "A", to_user_id := "B", amount := 100 })
        "A" none "B" = none :=
  ⟨by decide,
    c5_settlement_cancellation
      { expenses := [{ paid_by_id := "B", splits := [{ user_id := "A", amount := 100 }] }],
        settlements := [] } "A" "B" 100 (by decide)⟩

/-- C6 (counterexample): updating an expense to a `shares` split with
supplied share rows deletes the prior split rows and creates none — the
expense ends with an empty split list instead of allocator-recomputed
rows. -/
theorem c6_counterexample :
    updateExpenseSplits [{ user_id := "B", amount := 50 }] "equal" 100
      { split_type := some "shares", splits := some [("B", 2)] } = .ok [] := by
  rfl

/-- C6 (witness): the amended behaviour at a `percentage` update — prior
rows deleted, nothing recreated. -/
theorem c6_witness :
    updateExpenseSplits [{ user_id := "C", amount := 10 }] "equal" 90
      { split_type := some "percentage", splits := some [("C", 50)] } = .ok [] :=
  (c6_update_split_replacement [{ user_id := "C", amount := 10 }] "equal" 90
    { split_type := some "percentage", splits := some [("C", 50)] }).1
    "percentage" rfl (by decide) (by decide)

/-- C9 (counterexample): submitting an existing non-draft expense — even as
its payer — yields HTTP 400, not the claimed `NotFound` (404). -/
theorem c9_counterexample :
    submitDraftCheck (some { paid_by_id := "A", is_draft := false }) "A" = .error 400
    ∧ (Except.error 400 : Except Nat StoredExpense) ≠ .error 404 := by
  constructor
  · rfl
  · intro h
    injection h with h2
    exact absurd h2 (by decide)

/-- C9 (witness): a draft of payer `B` submitted by `A` is rejected with
HTTP 403. -/
theorem c9_witness :
    submitDraftCheck (some { paid_by_id := "B", is_draft := true }) "A" = .error 403 :=
  (c9_submit_draft_guards { paid_by_id := "B", is_draft := true } "A").2.2.1 rfl (by decide)

end ConcreteEvaluation

end SplitApp
